import Mathlib

/-!
Shallow embedding of the statsd input plugin (`statsd.go`): the line parser,
the name/tag keying, the per-type aggregation caches, the counter portion of
`Gather`, TTL eviction, and the queue-overflow drop-log branches.

Go `float64` values are modelled as exact unnormalized rationals (`Q`); the
inputs exercised here (decimal literals such as `0.5`, `0.375`, integers) are
exactly representable in `float64`, so the exact-rational semantics agrees
with the source on every concrete evaluation below.  Go maps are modelled as
association lists (`mget`/`mput`); Go `interface{}` fields are the tagged
`GoVal`; a failing Go type assertion (a runtime panic) is `Option.none`.
-/

namespace Statsd

/-- Exact rational number with unnormalized representation `num / den`.
Models Go `float64` values; all constructions below keep `den` positive. -/
structure Q where
  num : Int := 0
  den : Nat := 1
deriving DecidableEq

/-- Embed an integer (Go `float64(v)` of an `int64`). -/
def Q.ofInt (n : Int) : Q := ⟨n, 1⟩

/-- Zero test, Go `x != 0` on a float64 (negated). -/
def Q.isZero (q : Q) : Bool := q.num = 0

/-- Positivity test, Go `x > 0` on a float64 (dens are positive). -/
def Q.pos (q : Q) : Bool := decide (0 < q.num)

/-- Comparison `a < b` of exact rationals (for positive dens). -/
def Q.ltb (a b : Q) : Bool := decide (a.num * (b.den : Int) < b.num * (a.den : Int))

/-- Addition of exact rationals. -/
def Q.add (a b : Q) : Q := ⟨a.num * b.den + b.num * a.den, a.den * b.den⟩

/-- Multiplication of exact rationals. -/
def Q.mul (a b : Q) : Q := ⟨a.num * b.num, a.den * b.den⟩

/-- Reciprocal; inverting zero gives the invalid `den = 0` (callers guard). -/
def Q.inv (a : Q) : Q :=
  if a.num < 0 then ⟨-(a.den : Int), a.num.natAbs⟩ else ⟨(a.den : Int), a.num.natAbs⟩

/-- Division of exact rationals, Go float64 division. -/
def Q.div (a b : Q) : Q := a.mul b.inv

/-- Truncation toward zero: Go `int64(x)` / `int(x)` conversion of a float64. -/
def Q.trunc (q : Q) : Int := q.num.tdiv (q.den : Int)

/-- Rounding to the nearest integer (half away from zero is irrelevant to the
uses below); this is the `round` the specification text speaks about, not an
operation of the source. -/
def Q.rnd (q : Q) : Int := Int.fdiv (2 * q.num + (q.den : Int)) (2 * (q.den : Int))

/-- One, Go `1.0`. -/
def Q.one : Q := ⟨1, 1⟩

/- ----------------------------------------------------------------- -/
/- Byte-string helpers.  Go strings here are ASCII, so the Lean `Char`
   list underlying a `String` matches the Go byte view. -/

/-- Splitting on a single-character separator, Go `strings.Split` (all
separators used by the source - `:`, `|`, `,`, `=`, `.` - are one byte). -/
def splitChars (sep : Char) : List Char → List (List Char)
  | [] => [[]]
  | c :: rest =>
    let r := splitChars sep rest
    if c = sep then [] :: r
    else
      match r with
      | [] => [[c]]
      | h :: t => (c :: h) :: t

/-- Go `strings.Split(s, sep)` for a one-byte separator. -/
def gSplit (sep : Char) (s : String) : List String :=
  (splitChars sep s.data).map String.mk

/-- Character-list prefix test. -/
def charPre : List Char → List Char → Bool
  | [], _ => true
  | _ :: _, [] => false
  | a :: as, b :: bs => a = b && charPre as bs

/-- Go `strings.HasPrefix`. -/
def gStartsWith (s pre : String) : Bool := charPre pre.data s.data

/-- White-space class of Go `strings.TrimSpace` (ASCII part). -/
def isGoSpace (c : Char) : Bool :=
  c = ' ' || c = '\t' || c = '\n' || c = '\r' || c = Char.ofNat 11 || c = Char.ofNat 12

/-- Go `strings.TrimSpace` (ASCII white space). -/
def gTrim (s : String) : String :=
  String.mk (((s.data.dropWhile isGoSpace).reverse.dropWhile isGoSpace).reverse)

/-- Go slice `s[n:]` (ASCII). -/
def gDrop (n : Nat) (s : String) : String := String.mk (s.data.drop n)

/-- Go `len(s)` (ASCII). -/
def gLen (s : String) : Nat := s.data.length

/-- Go `strings.Contains(s, c)` for a one-byte needle. -/
def gContainsChar (s : String) (c : Char) : Bool := s.data.any (· = c)

/-- Concatenation of a list of strings, Go `strings.Join(l, "")`. -/
def strConcat (l : List String) : String :=
  String.mk (l.foldr (fun s acc => s.data ++ acc) [])

/-- Go `strings.Join(l, sep)` for a one-byte separator. -/
def gJoin (sep : Char) : List String → String
  | [] => ""
  | [s] => s
  | s :: rest => String.mk (s.data ++ sep :: (gJoin sep rest).data)

/-- Go `strings.ReplaceAll(s, c, repl)` for a one-byte pattern. -/
def charReplace (c : Char) (repl : List Char) (s : String) : String :=
  String.mk (s.data.foldr (fun x acc => if x = c then repl ++ acc else x :: acc) [])

/-- Byte-wise lexicographic order on character lists, the order of Go
`sort.Strings` (ASCII: byte order equals code-point order). -/
def lexLe : List Char → List Char → Bool
  | [], _ => true
  | _ :: _, [] => false
  | a :: as, b :: bs =>
    decide (a.toNat < b.toNat) || (decide (a.toNat = b.toNat) && lexLe as bs)

/-- Lexicographic order on strings, Go `sort.Strings` comparison. -/
def strLe (a b : String) : Bool := lexLe a.data b.data

/-- Go `sort.Strings`. -/
def sortStrings (l : List String) : List String :=
  List.insertionSort (fun a b => strLe a b = true) l

/- ----------------------------------------------------------------- -/
/- Number parsing, Go `strconv`. -/

/-- Value of a digit run. -/
def digitsToNat (cs : List Char) : Nat :=
  cs.foldl (fun a c => 10 * a + (c.toNat - 48)) 0

/-- Digit-run test. -/
def allDigits (cs : List Char) : Bool := cs.all (fun c => '0' ≤ c && c ≤ '9')

/-- Nonempty digit run to a number. -/
def parseDigits (cs : List Char) : Option Nat :=
  if cs ≠ [] ∧ allDigits cs then some (digitsToNat cs) else none

/-- Strip one optional leading sign; returns (negative?, rest). -/
def stripSign : List Char → Bool × List Char
  | '+' :: rest => (false, rest)
  | '-' :: rest => (true, rest)
  | cs => (false, cs)

/-- Go `strconv.ParseInt(s, 10, 64)`: optional sign, decimal digits, an
out-of-range value is an error (the source then falls back to float). -/
def goParseInt (s : String) : Option Int :=
  let (neg, ds) := stripSign s.data
  match parseDigits ds with
  | none => none
  | some n =>
    let v : Int := if neg then -(n : Int) else (n : Int)
    if -(2 ^ 63) ≤ v ∧ v ≤ 2 ^ 63 - 1 then some v else none

/-- Go `strconv.ParseFloat(s, 64)`, restricted to the plain decimal forms the
source's inputs use (optional sign, digits, optional fraction; no exponent,
hexadecimal, or inf/nan forms). -/
def goParseFloat (s : String) : Option Q :=
  let (neg, ds) := stripSign s.data
  let sign : Int := if neg then -1 else 1
  match splitChars '.' ds with
  | [ip] =>
    (parseDigits ip).map fun n => ⟨sign * n, 1⟩
  | [ip, fp] =>
    if ip = [] ∧ fp = [] then none
    else if allDigits ip ∧ allDigits fp then
      some ⟨sign * ((digitsToNat ip) * 10 ^ fp.length + digitsToNat fp : Nat), 10 ^ fp.length⟩
    else none
  | _ => none

/- ----------------------------------------------------------------- -/
/- Go map model: association lists with first-match lookup. -/

/-- Go map read `l[k]` (presence-aware form). -/
def mget {α : Type} (l : List (String × α)) (k : String) : Option α :=
  match l with
  | [] => none
  | (k', v) :: rest => if k' = k then some v else mget rest k

/-- Go map write `l[k] = v`. -/
def mput {α : Type} (l : List (String × α)) (k : String) (v : α) : List (String × α) :=
  match l with
  | [] => [(k, v)]
  | (k', v') :: rest => if k' = k then (k, v) :: rest else (k', v') :: mput rest k v

/- ----------------------------------------------------------------- -/
/- Data model of the plugin (statsd.go). -/

/-- Go `interface{}` value stored in gauge/counter field maps. -/
inductive GoVal where
  | vint (i : Int)
  | vfloat (q : Q)
  | vstr (s : String)
deriving DecidableEq

/-- Go type assertion `.(int64)`; `none` is the runtime panic. -/
def GoVal.asInt : GoVal → Option Int
  | .vint i => some i
  | _ => none

/-- Go type assertion `.(float64)`; `none` is the runtime panic. -/
def GoVal.asFloat : GoVal → Option Q
  | .vfloat q => some q
  | _ => none

/-- Configuration options of the `Statsd` struct that the modelled code
reads (statsd.go lines 42-136). -/
structure Config where
  ConvertNames : Bool := false
  FloatCounters : Bool := false
  DeleteCounters : Bool := false
  DeleteGauges : Bool := false
  DeleteSets : Bool := false
  DeleteTimings : Bool := false
  EnableAggregationTemporality : Bool := false
  DataDogExtensions : Bool := false
  DataDogDistributions : Bool := false
  DataDogKeepContainerTag : Bool := false
  SanitizeNamesMethod : String := ""
  PercentileLimit : Int := 0
  MaxTTL : Int := 0
  AllowedPendingMessages : Int := 0
deriving DecidableEq

/-- One statsd metric (statsd.go lines 173-186). -/
structure metric where
  name : String := ""
  field : String := ""
  bucket : String := ""
  hash : String := ""
  intvalue : Int := 0
  floatvalue : Q := {}
  strvalue : String := ""
  mtype : String := ""
  additive : Bool := false
  samplerate : Q := {}
  tags : List (String × String) := []
deriving DecidableEq

/-- Modelled from the spec: `RunningStats` (running_stats.go is not among the
provided sources).  Spec 4.1: `addValue` updates running min/max/sum/count and
a reservoir of at most `percLimit` observations; the uniformly chosen slot to
overwrite once the reservoir is full is implementation-defined randomness and
is fixed to slot zero here (no verified property depends on the choice). -/
structure runningStats where
  count : Int := 0
  sum : Q := {}
  mn : Q := {}
  mx : Q := {}
  values : List Q := []
  percLimit : Int := 0
deriving DecidableEq

/-- Modelled from the spec: one `addValue` call of `RunningStats`. -/
def runningStats.addValue (rs : runningStats) (x : Q) : runningStats :=
  { rs with
    count := rs.count + 1
    sum := rs.sum.add x
    mn := if rs.count = 0 then x else (if x.ltb rs.mn then x else rs.mn)
    mx := if rs.count = 0 then x else (if rs.mx.ltb x then x else rs.mx)
    values :=
      if rs.count + 1 ≤ rs.percLimit then rs.values ++ [x]
      else
        match rs.values with
        | [] => [x]
        | _ :: rest => x :: rest }

/-- Iterated `addValue` (the sample-rate upsampling loop of `aggregate`). -/
def addValueN (rs : runningStats) (x : Q) : Nat → runningStats
  | 0 => rs
  | k + 1 => addValueN (rs.addValue x) x k

/-- Cached gauge entry (statsd.go lines 195-200). -/
structure cachedgauge where
  name : String := ""
  fields : List (String × GoVal) := []
  tags : List (String × String) := []
  expiresAt : Int := 0
deriving DecidableEq

/-- Cached counter entry (statsd.go lines 202-207). -/
structure cachedcounter where
  name : String := ""
  fields : List (String × GoVal) := []
  tags : List (String × String) := []
  expiresAt : Int := 0
deriving DecidableEq

/-- Cached set entry (statsd.go lines 188-193); a `map[string]bool` used as a
set is a duplicate-free list of the keys present. -/
structure cachedset where
  name : String := ""
  fields : List (String × List String) := []
  tags : List (String × String) := []
  expiresAt : Int := 0
deriving DecidableEq

/-- Cached timings entry (statsd.go lines 209-214). -/
structure cachedtimings where
  name : String := ""
  fields : List (String × runningStats) := []
  tags : List (String × String) := []
  expiresAt : Int := 0
deriving DecidableEq

/-- Cached distribution sample (statsd.go lines 216-220). -/
structure cacheddistributions where
  name : String := ""
  value : Q := {}
  tags : List (String × String) := []
deriving DecidableEq

/-- The mutable caches of the `Statsd` struct (statsd.go lines 113-121). -/
structure StatsdState where
  gauges : List (String × cachedgauge) := []
  counters : List (String × cachedcounter) := []
  sets : List (String × cachedset) := []
  timings : List (String × cachedtimings) := []
  distributions : List cacheddistributions := []
deriving DecidableEq

/-- The caches right after `Start`. -/
def emptyState : StatsdState := {}

/- ----------------------------------------------------------------- -/
/- Name keying (parseName, statsd.go lines 765-842). -/

/-- Go `parseKeyValue` (statsd.go lines 824-842). -/
def parseKeyValue (keyValue : String) : String × String :=
  match gSplit '=' keyValue with
  | [k, v] => (k, v)
  | [v] => ("", v)
  | k :: vs => (k, gJoin '=' vs)
  | [] => ("", "")

/-- Character class `[a-zA-Z_\-0-9\.;=]` of the upstream sanitize method. -/
def isAllowedNameChar (c : Char) : Bool :=
  ('a' ≤ c && c ≤ 'z') || ('A' ≤ c && c ≤ 'Z') || ('0' ≤ c && c ≤ '9') ||
    c = '_' || c = '-' || c = '.' || c = ';' || c = '='

/-- RE2 `\s` class used by the upstream sanitize method. -/
def isReSpace (c : Char) : Bool :=
  c = ' ' || c = '\t' || c = '\n' || c = Char.ofNat 12 || c = '\r'

/-- Replace every maximal run of `\s+` by a single `_`. -/
def collapseWSAux : Bool → List Char → List Char
  | _, [] => []
  | inRun, c :: rest =>
    if isReSpace c then
      if inRun then collapseWSAux true rest else '_' :: collapseWSAux true rest
    else c :: collapseWSAux false rest

/-- The `"upstream"` sanitize method (statsd.go lines 788-793): collapse
white space to `_`, replace `/` with `-`, strip disallowed characters. -/
def sanitizeUpstream (s : String) : String :=
  let s1 := String.mk (collapseWSAux false s.data)
  let s2 := charReplace '/' ['-'] s1
  String.mk (s2.data.filter isAllowedNameChar)

/-- Modelled from the spec: the external graphite name mapper
(`p.ApplyTemplate`, a collaborator outside the provided sources).  Spec 4.3:
with no templates configured it leaves the name unchanged, keeps the default
tags, and produces no field. -/
def applyTemplate (name : String) (tags : List (String × String)) :
    String × List (String × String) × String :=
  (name, tags, "")

/-- Go `parseName` (statsd.go lines 769-822): split inline `,k=v` tags off the
bucket, apply the sanitize method, delegate to the (modelled) graphite mapper,
apply `ConvertNames`, default the field name.  The unknown-sanitize-method
branch only logs and leaves the name unchanged. -/
def parseName (cfg : Config) (bucket : String) :
    String × String × List (String × String) :=
  let bucketparts := gSplit ',' bucket
  let tags :=
    match bucketparts with
    | [] => []
    | _ :: rest =>
      rest.foldl
        (fun acc btag =>
          let kv := parseKeyValue btag
          if kv.1 ≠ "" then mput acc kv.1 kv.2 else acc)
        []
  let name := bucketparts.headD ""
  let name :=
    if cfg.SanitizeNamesMethod = "" then name
    else if cfg.SanitizeNamesMethod = "upstream" then sanitizeUpstream name
    else name
  let (name, tags, field) := applyTemplate name tags
  let name :=
    if cfg.ConvertNames then charReplace '-' ['_', '_'] (charReplace '.' ['_'] name)
    else name
  let field := if field = "" then "value" else field
  (name, field, tags)

/-- Modelled from the spec: `parseDataDogTags` (datadog.go is not among the
provided sources).  Spec 4.2 grammar `key(':'value)?(',' ...)*`; a valueless
key is given the value `true` (the spec does not fix it). -/
def parseDataDogTags (tags : List (String × String)) (tagList : String) :
    List (String × String) :=
  (gSplit ',' tagList).foldl
    (fun acc item =>
      match gSplit ':' item with
      | [] => acc
      | [k] => if k = "" then acc else mput acc k "true"
      | k :: vs => if k = "" then acc else mput acc k (gJoin ':' vs))
    tags

/- ----------------------------------------------------------------- -/
/- Line parsing (parseStatsdLine, statsd.go lines 608-763). -/

/-- Sample-rate division of a counter value (statsd.go lines 711-715):
`if m.samplerate != 0 { v = int64(float64(v) / m.samplerate) }`. -/
def counterScale (v : Int) (r : Q) : Int :=
  if r.isZero then v else ((Q.ofInt v).div r).trunc

/-- The `metric_type` tag value per metric type (statsd.go lines 722-743). -/
def metricTypeTag (t : String) : String :=
  if t = "c" then "counter"
  else if t = "g" then "gauge"
  else if t = "s" then "set"
  else if t = "ms" then "timing"
  else if t = "h" then "histogram"
  else "distribution"

/-- Identity hash of a sample (statsd.go lines 750-757): the tags as `k=v`
strings, sorted, joined with no separator, with the name appended. -/
def hashOf (tags : List (String × String)) (name : String) : String :=
  strConcat (sortStrings (tags.map fun kv => kv.1 ++ "=" ++ kv.2) ++ [name])

/-- Parse one `value|type|modifier` bit of a line (the body of the loop in
statsd.go lines 647-760, up to the `aggregate` call); `none` is `errParsing`. -/
def parseBit (cfg : Config) (bucketName : String)
    (lineTags : List (String × String)) (bit : String) : Option metric :=
  match gSplit '|' bit with
  | v0 :: t1 :: rest =>
    let samplerate : Q :=
      match rest with
      | [] => {}
      | sr :: _ =>
        if gContainsChar sr '@' && gLen sr > 1 then
          match goParseFloat (gDrop 1 sr) with
          | some r => r
          | none => {}
        else {}
    if ¬(t1 = "g" ∨ t1 = "c" ∨ t1 = "s" ∨ t1 = "ms" ∨ t1 = "h" ∨ t1 = "d") then none
    else
      let hasSign := gStartsWith v0 "-" || gStartsWith v0 "+"
      if hasSign ∧ t1 ≠ "g" ∧ t1 ≠ "c" then none
      else
        let vals :=
          if t1 = "g" ∨ t1 = "ms" ∨ t1 = "h" ∨ t1 = "d" then
            (goParseFloat v0).map fun q => (q, (0 : Int), "")
          else if t1 = "c" then
            let vi :=
              match goParseInt v0 with
              | some v => some v
              | none => (goParseFloat v0).map Q.trunc
            vi.map fun v => (({} : Q), counterScale v samplerate, "")
          else some (({} : Q), (0 : Int), v0)
        match vals with
        | none => none
        | some (fv, iv, sv) =>
          let (name, field, tags0) := parseName cfg bucketName
          let tags1 := mput tags0 "metric_type" (metricTypeTag t1)
          let tags2 :=
            if t1 = "c" ∧ cfg.EnableAggregationTemporality then
              mput tags1 "temporality" (if cfg.DeleteCounters then "delta" else "cumulative")
            else tags1
          let tags3 := lineTags.foldl (fun acc kv => mput acc kv.1 kv.2) tags2
          some
            { name := name, field := field, bucket := bucketName,
              hash := hashOf tags3 name, intvalue := iv, floatvalue := fv,
              strvalue := sv, mtype := t1, additive := hasSign,
              samplerate := samplerate, tags := tags3 }
  | _ => none

/-- Aggregation of one parsed metric (statsd.go lines 847-949); `none` is a
runtime panic of a Go type assertion. -/
def aggregate (cfg : Config) (now : Int) (st : StatsdState) (m : metric) :
    Option StatsdState :=
  if m.mtype = "d" then
    if cfg.DataDogExtensions && cfg.DataDogDistributions then
      let d : cacheddistributions := { name := m.name, value := m.floatvalue, tags := m.tags }
      some { st with distributions := st.distributions ++ [d] }
    else some st
  else if m.mtype = "ms" ∨ m.mtype = "h" then
    let cached :=
      match mget st.timings m.hash with
      | some c => c
      | none => { name := m.name, fields := [], tags := m.tags }
    let field :=
      match mget cached.fields m.field with
      | some f => f
      | none => { percLimit := cfg.PercentileLimit }
    let k : Nat :=
      if m.samplerate.pos then ((Q.one.div m.samplerate).trunc).toNat else 1
    let field := addValueN field m.floatvalue k
    let cached := { cached with fields := mput cached.fields m.field field, expiresAt := now + cfg.MaxTTL }
    some { st with timings := mput st.timings m.hash cached }
  else if m.mtype = "c" then
    let cached :=
      match mget st.counters m.hash with
      | some c => c
      | none => { name := m.name, fields := [], tags := m.tags }
    let fields :=
      match mget cached.fields m.field with
      | some _ => cached.fields
      | none => mput cached.fields m.field (GoVal.vint 0)
    match mget fields m.field with
    | none => none
    | some v =>
      match v.asInt with
      | none => none
      | some i =>
        let cached := { cached with fields := mput fields m.field (GoVal.vint (i + m.intvalue)), expiresAt := now + cfg.MaxTTL }
        some { st with counters := mput st.counters m.hash cached }
  else if m.mtype = "g" then
    let cached :=
      match mget st.gauges m.hash with
      | some c => c
      | none => { name := m.name, fields := [], tags := m.tags }
    let fields :=
      match mget cached.fields m.field with
      | some _ => cached.fields
      | none => mput cached.fields m.field (GoVal.vfloat {})
    let newVal :=
      if m.additive then
        match mget fields m.field with
        | none => none
        | some v => (v.asFloat).map fun q => GoVal.vfloat (q.add m.floatvalue)
      else some (GoVal.vfloat m.floatvalue)
    match newVal with
    | none => none
    | some nv =>
      let cached := { cached with fields := mput fields m.field nv, expiresAt := now + cfg.MaxTTL }
      some { st with gauges := mput st.gauges m.hash cached }
  else if m.mtype = "s" then
    let cached :=
      match mget st.sets m.hash with
      | some c => c
      | none => { name := m.name, fields := [], tags := m.tags }
    let fields :=
      match mget cached.fields m.field with
      | some _ => cached.fields
      | none => mput cached.fields m.field []
    let cur := (mget fields m.field).getD []
    let cur := if cur.contains m.strvalue then cur else cur ++ [m.strvalue]
    let cached := { cached with fields := mput fields m.field cur, expiresAt := now + cfg.MaxTTL }
    some { st with sets := mput st.sets m.hash cached }
  else some st

/-- Outcome of `parseStatsdLine`: success, `errParsing` (with the state at the
moment the error is returned), or a runtime panic. -/
inductive LineOutcome where
  | ok (st : StatsdState)
  | parseError (st : StatsdState)
  | panicked
deriving DecidableEq

/-- The per-bit loop of `parseStatsdLine` (statsd.go lines 647-760): each bit
is parsed and immediately aggregated; the first malformed bit aborts the loop
with `errParsing`, keeping the aggregations already performed. -/
def processBits (cfg : Config) (now : Int) (bucketName : String)
    (lineTags : List (String × String)) :
    List String → StatsdState → LineOutcome
  | [], st => .ok st
  | bit :: rest, st =>
    match parseBit cfg bucketName lineTags bit with
    | none => .parseError st
    | some m =>
      match aggregate cfg now st m with
      | none => .panicked
      | some st' => processBits cfg now bucketName lineTags rest st'

/-- Go `parseStatsdLine` (statsd.go lines 610-763): optional DataDog segment
stripping, split on `:`, then the per-bit loop. -/
def parseStatsdLine (cfg : Config) (now : Int) (line : String)
    (st : StatsdState) : LineOutcome :=
  let (line, lineTags) :=
    if cfg.DataDogExtensions then
      let pipesplit := gSplit '|' line
      let (segs, lt) := pipesplit.foldl
        (fun (acc : List String × List (String × String)) seg =>
          if gLen seg > 0 && gStartsWith seg "#" then
            (acc.1, parseDataDogTags acc.2 (gDrop 1 seg))
          else if gLen seg > 0 && gStartsWith seg "c:" then
            if cfg.DataDogKeepContainerTag then
              (acc.1, mput acc.2 "container" (gDrop 2 seg))
            else (acc.1, acc.2)
          else (acc.1 ++ [seg], acc.2))
        ([], [])
      (gJoin '|' segs, lt)
    else (line, [])
  match gSplit ':' line with
  | bucketName :: b :: bits => processBits cfg now bucketName lineTags (b :: bits) st
  | _ => .parseError st

/-- The per-line loop of one worker batch (`parser`, statsd.go lines 580-601):
empty lines are skipped, DataDog event lines go to the external event handler
whose failures are only logged, `errParsing` from `parseStatsdLine` is ignored
and the worker continues with the next line; `none` is a worker panic. -/
def workerLines (cfg : Config) (now : Int) :
    List String → StatsdState → Option StatsdState
  | [], st => some st
  | l :: rest, st =>
    let line := gTrim l
    if line = "" then workerLines cfg now rest st
    else if cfg.DataDogExtensions && gStartsWith line "_e" then
      workerLines cfg now rest st
    else
      match parseStatsdLine cfg now line st with
      | .ok st' => workerLines cfg now rest st'
      | .parseError st' => workerLines cfg now rest st'
      | .panicked => none

/- ----------------------------------------------------------------- -/
/- Flush (the counters portion of Gather) and TTL eviction. -/

/-- The counters paragraph of `Gather` (statsd.go lines 395-409): inject the
`start_time` field when aggregation temporality is on, convert every field of
the cached map in place to float when `FloatCounters` is on (a failing
`.(int64)` assertion is `none`), then clear the cache iff `DeleteCounters`.
Emission to the accumulator is outside the model. -/
def gatherCounters (cfg : Config) (startTime : String) (st : StatsdState) :
    Option StatsdState := do
  let entries ← st.counters.mapM fun kv => do
    let fields :=
      if cfg.EnableAggregationTemporality then
        mput kv.2.fields "start_time" (GoVal.vstr startTime)
      else kv.2.fields
    let fields ←
      if cfg.FloatCounters then
        fields.mapM fun f => do
          let i ← f.2.asInt
          pure (f.1, GoVal.vfloat (Q.ofInt i))
      else pure fields
    pure (kv.1, { kv.2 with fields := fields })
  pure { st with counters := if cfg.DeleteCounters then [] else entries }

/-- Go `expireCachedMetrics` (statsd.go lines 1034-1065): a no-op when
`MaxTTL == 0`, otherwise delete from all four caches every entry with
`now.After(expiresAt)`, i.e. `expiresAt < now`. -/
def expireCachedMetrics (maxTTL now : Int) (st : StatsdState) : StatsdState :=
  if maxTTL = 0 then st
  else
    { st with
      gauges := st.gauges.filter fun kv => !decide (kv.2.expiresAt < now),
      sets := st.sets.filter fun kv => !decide (kv.2.expiresAt < now),
      timings := st.timings.filter fun kv => !decide (kv.2.expiresAt < now),
      counters := st.counters.filter fun kv => !decide (kv.2.expiresAt < now) }

/- ----------------------------------------------------------------- -/
/- Queue-overflow drop logging. -/

/-- The TCP handler's queue-overflow branch (statsd.go lines 997-1002): after
`s.drops++`, Go evaluates `s.drops == 1 || s.drops%s.AllowedPendingMessages == 0`
left to right; the modulo panics (`none`) when `AllowedPendingMessages` is 0. -/
def tcpDropShouldLog (drops apm : Int) : Option Bool :=
  if drops = 1 then some true
  else if apm = 0 then none
  else some (decide (Int.tmod drops apm = 0))

/-- The UDP listener's queue-overflow branch (statsd.go lines 555-561):
`s.drops == 1 || s.AllowedPendingMessages == 0 || s.drops%s.AllowedPendingMessages == 0`,
whose middle disjunct guards the modulo. -/
def udpDropShouldLog (drops apm : Int) : Option Bool :=
  if drops = 1 then some true
  else if apm = 0 then some true
  else some (decide (Int.tmod drops apm = 0))

/-- Default configuration for concrete evaluations (all switches off). -/
def cfg0 : Config := {}

/-- Configuration with `FloatCounters` on and `DeleteCounters` off. -/
def cfgFloatKeep : Config := { cfg0 with FloatCounters := true }

/-- A counter sample of value 1 for hash `h`, field `value`. -/
def probeCounter : metric := { mtype := "c", hash := "h", field := "value", intvalue := 1 }

/-- The cache state produced by aggregating `probeCounter` into the empty
state under `cfg0` at time 0. -/
def probeCounterState : StatsdState :=
  { counters := [("h",
      { name := "", fields := [("value", GoVal.vint 1)], tags := [], expiresAt := 0 })] }

/-- A state with one counter entry expiring at time 5, for TTL evaluations. -/
def ttlProbeState : StatsdState :=
  { counters := [("h",
      { name := "n", fields := [("value", GoVal.vint 1)], tags := [], expiresAt := 5 })] }

/-- Field of a cached counter entry. -/
def counterField (st : StatsdState) (h f : String) : Option GoVal :=
  (mget st.counters h).bind fun e => mget e.fields f

/-- Field of a cached gauge entry. -/
def gaugeField (st : StatsdState) (h f : String) : Option GoVal :=
  (mget st.gauges h).bind fun e => mget e.fields f

/-- Field of a cached timings entry. -/
def timingField (st : StatsdState) (h f : String) : Option runningStats :=
  (mget st.timings h).bind fun e => mget e.fields f

/-- State carried by a non-panicking line outcome. -/
def LineOutcome.state : LineOutcome → Option StatsdState
  | .ok st => some st
  | .parseError st => some st
  | .panicked => none

/- ----------------------------------------------------------------- -/
/- Association-list lemmas. -/

theorem mget_mput_self {α : Type} (l : List (String × α)) (k : String) (v : α) :
    mget (mput l k v) k = some v := by
  induction l with
  | nil => simp [mget, mput]
  | cons p rest ih =>
    by_cases h : p.1 = k
    · simp [mget, mput, h]
    · simpa [mget, mput, h] using ih

theorem mget_eq_none_of_forall_ne {α : Type} (l : List (String × α)) (k : String)
    (h : ∀ p ∈ l, p.1 ≠ k) : mget l k = none := by
  induction l with
  | nil => rfl
  | cons p rest ih =>
    have h1 : p.1 ≠ k := h p (List.mem_cons_self p rest)
    have h2 : ∀ q ∈ rest, q.1 ≠ k := fun q hq => h q (List.mem_cons_of_mem p hq)
    simp [mget, h1, ih h2]

theorem mget_filter {α : Type} (p : α → Bool) (l : List (String × α)) (k : String)
    (hnd : (l.map Prod.fst).Nodup) :
    mget (l.filter fun kv => p kv.2) k =
      (mget l k).bind fun v => if p v then some v else none := by
  induction l with
  | nil => rfl
  | cons hd rest ih =>
    rw [List.map_cons, List.nodup_cons] at hnd
    obtain ⟨hmem, hnd'⟩ := hnd
    by_cases hk : hd.1 = k
    · subst hk
      by_cases hp : p hd.2
      · simp [List.filter_cons, hp, mget]
      · have hrest : mget rest hd.1 = none := by
          refine mget_eq_none_of_forall_ne rest hd.1 fun q hq => ?_
          intro hq1
          exact hmem (hq1 ▸ List.mem_map_of_mem Prod.fst hq)
        simp [List.filter_cons, hp, mget, ih hnd', hrest]
    · by_cases hp : p hd.2
      · simp [List.filter_cons, hp, mget, hk, ih hnd']
      · simp [List.filter_cons, hp, mget, hk, ih hnd']

/- ----------------------------------------------------------------- -/
/- The byte-lexicographic order underlying `sort.Strings`. -/

theorem lexLe_total : ∀ as bs : List Char, lexLe as bs = true ∨ lexLe bs as = true := by
  intro as
  induction as with
  | nil => intro bs; left; rfl
  | cons a as ih =>
    intro bs
    cases bs with
    | nil => right; rfl
    | cons b bs =>
      rcases Nat.lt_trichotomy a.toNat b.toNat with h | h | h
      · left; simp [lexLe, h]
      · rcases ih bs with h2 | h2
        · left; simp [lexLe, h, h2]
        · right; simp [lexLe, h.symm, h2]
      · right; simp [lexLe, h]

theorem lexLe_trans :
    ∀ as bs cs : List Char, lexLe as bs = true → lexLe bs cs = true →
      lexLe as cs = true := by
  intro as
  induction as with
  | nil => intro bs cs _ _; rfl
  | cons a as ih =>
    intro bs cs h1 h2
    cases bs with
    | nil => simp [lexLe] at h1
    | cons b bs =>
      cases cs with
      | nil => simp [lexLe] at h2
      | cons c cs =>
        simp only [lexLe, Bool.or_eq_true, Bool.and_eq_true, decide_eq_true_eq] at h1 h2 ⊢
        rcases h1 with h1 | ⟨h1e, h1r⟩
        · rcases h2 with h2 | ⟨h2e, _⟩
          · exact Or.inl (h1.trans h2)
          · exact Or.inl (h2e ▸ h1)
        · rcases h2 with h2 | ⟨h2e, h2r⟩
          · exact Or.inl (h1e ▸ h2)
          · exact Or.inr ⟨h1e.trans h2e, ih bs cs h1r h2r⟩

theorem char_eq_of_toNat_eq {a b : Char} (h : a.toNat = b.toNat) : a = b := by
  have ha := Char.ofNat_toNat a
  rw [h, Char.ofNat_toNat] at ha
  exact ha.symm

theorem lexLe_antisymm :
    ∀ as bs : List Char, lexLe as bs = true → lexLe bs as = true → as = bs := by
  intro as
  induction as with
  | nil =>
    intro bs _ h2
    cases bs with
    | nil => rfl
    | cons b bs => simp [lexLe] at h2
  | cons a as ih =>
    intro bs h1 h2
    cases bs with
    | nil => simp [lexLe] at h1
    | cons b bs =>
      simp only [lexLe, Bool.or_eq_true, Bool.and_eq_true, decide_eq_true_eq] at h1 h2
      rcases h1 with h1 | ⟨h1e, h1r⟩
      · rcases h2 with h2 | ⟨h2e, _⟩
        · omega
        · omega
      · rcases h2 with h2 | ⟨_, h2r⟩
        · omega
        · exact congrArg₂ List.cons (char_eq_of_toNat_eq h1e) (ih bs h1r h2r)

theorem string_data_inj {s t : String} (h : s.data = t.data) : s = t := by
  cases s; cases t; exact congrArg String.mk h

instance : IsTotal String (fun a b => strLe a b = true) :=
  ⟨fun a b => lexLe_total a.data b.data⟩

instance : IsTrans String (fun a b => strLe a b = true) :=
  ⟨fun a b c => lexLe_trans a.data b.data c.data⟩

instance : IsAntisymm String (fun a b => strLe a b = true) :=
  ⟨fun a b h1 h2 => string_data_inj (lexLe_antisymm a.data b.data h1 h2)⟩

theorem sortStrings_perm_eq {l l' : List String} (h : l.Perm l') :
    sortStrings l = sortStrings l' :=
  List.eq_of_perm_of_sorted
    ((List.perm_insertionSort _ _).trans (h.trans (List.perm_insertionSort _ _).symm))
    (List.sorted_insertionSort _ _) (List.sorted_insertionSort _ _)

/- ----------------------------------------------------------------- -/
/- Claim theorems. -/

/-- C5: two samples with the same name and the same tag map (any ordering of
the tag pairs) produce equal hash strings, hence hit the same cache entry:
the hash sorts the tags as `k=v` pairs, joins them and appends the name
(statsd.go lines 750-757). -/
theorem hash_identity_tag_order (t1 t2 : List (String × String)) (name : String)
    (h : t1.Perm t2) : hashOf t1 name = hashOf t2 name := by
  unfold hashOf
  rw [sortStrings_perm_eq (h.map _)]

/-- Witness for `hash_identity_tag_order` at a concrete pair of permuted tag
lists. -/
theorem hash_identity_tag_order_witness :
    ([("region", "us"), ("env", "prod")] : List (String × String)).Perm
        [("env", "prod"), ("region", "us")] ∧
      hashOf [("region", "us"), ("env", "prod")] "page.views" =
        hashOf [("env", "prod"), ("region", "us")] "page.views" :=
  ⟨by decide, hash_identity_tag_order _ _ _ (by decide)⟩

/-- C9: the cache key is not injective.  The sorted `k=v` pairs are joined
with no separator, so the tag maps `[a = b, c = d]` and `[a = bc=d]` - which
disagree on the key `c` - hash to the same string and would share one cache
entry. -/
theorem hash_key_collision :
    hashOf [("a", "b"), ("c", "d")] "m" = hashOf [("a", "bc=d")] "m" ∧
      mget [("a", "b"), ("c", "d")] "c" = some "d" ∧
      mget [("a", "bc=d")] "c" = none := by decide

/-- C10: the TCP handler's queue-overflow branch reduces the drop counter
modulo `AllowedPendingMessages` with no zero guard, so with
`AllowedPendingMessages = 0` every drop after the first divides by zero
(`none`); the UDP listener's otherwise-identical branch short-circuits on its
explicit `AllowedPendingMessages == 0` guard. -/
theorem tcp_drop_modulo_no_zero_guard :
    (∀ d : Int, d ≠ 1 → tcpDropShouldLog d 0 = none) ∧
      ∀ d : Int, udpDropShouldLog d 0 = some true := by
  constructor
  · intro d hd
    simp [tcpDropShouldLog, hd]
  · intro d
    by_cases hd : d = 1 <;> simp [udpDropShouldLog, hd]

/-- Witness for `tcp_drop_modulo_no_zero_guard` at the second dropped line. -/
theorem tcp_drop_modulo_no_zero_guard_witness :
    tcpDropShouldLog 2 0 = none ∧ udpDropShouldLog 2 0 = some true :=
  ⟨tcp_drop_modulo_no_zero_guard.1 2 (by decide), tcp_drop_modulo_no_zero_guard.2 2⟩

/-- C1 (counterexample): the counter sample-rate division truncates toward
zero rather than rounding.  One application of `1` at rate `0.375` stores `2`,
while applying `round(1/0.375) = 3` once at rate `1` stores `3`. -/
theorem counter_round_counterexample :
    (parseStatsdLine cfg0 0 "x:1|c|@0.375" emptyState).state.bind
        (fun st => counterField st "metric_type=counterx" "value") =
      some (GoVal.vint 2) ∧
      ((Q.ofInt 1).div ⟨375, 1000⟩).rnd = 3 ∧
      (parseStatsdLine cfg0 0 "x:3|c" emptyState).state.bind
          (fun st => counterField st "metric_type=counterx" "value") =
        some (GoVal.vint 3) ∧
      GoVal.vint 2 ≠ GoVal.vint 3 := by decide

/-- C1 (amended): for a counter sample `v` at rate `r ∈ (0,1]` one application
is equivalent to applying `trunc(v/r)` (truncation toward zero, Go `int64`
conversion, statsd.go lines 711-715) once at rate `1`; the literal example
`users.online:1|c|@0.5` with `ConvertNames` on yields counter `users_online`
with field `value = 2`. -/
theorem counter_samplerate_trunc_equiv (v : Int) (r : Q) (hpos : r.pos = true)
    (_hle : Q.one.ltb r = false) :
    counterScale v r = counterScale (((Q.ofInt v).div r).trunc) Q.one ∧
      (parseStatsdLine { cfg0 with ConvertNames := true } 0 "users.online:1|c|@0.5"
          emptyState).state.bind
        (fun st => counterField st "metric_type=counterusers_online" "value") =
        some (GoVal.vint 2) := by
  refine ⟨?_, by decide⟩
  have hz : r.isZero = false := by
    simp only [Q.pos, decide_eq_true_eq] at hpos
    simp only [Q.isZero, decide_eq_false_iff_not]
    omega
  have hone : Q.one.isZero = false := rfl
  rw [counterScale, counterScale, hz, hone]
  simp only [Bool.false_eq_true, if_false]
  generalize ((Q.ofInt v).div r).trunc = t
  simp [Q.div, Q.inv, Q.mul, Q.ofInt, Q.one, Q.trunc, Int.tdiv_one]

/-- Witness for `counter_samplerate_trunc_equiv` at `v = 5`, `r = 0.5`. -/
theorem counter_samplerate_trunc_equiv_witness :
    (⟨5, 10⟩ : Q).pos = true ∧ Q.one.ltb ⟨5, 10⟩ = false ∧
      (counterScale 5 ⟨5, 10⟩ = counterScale (((Q.ofInt 5).div ⟨5, 10⟩).trunc) Q.one ∧
        (parseStatsdLine { cfg0 with ConvertNames := true } 0 "users.online:1|c|@0.5"
            emptyState).state.bind
          (fun st => counterField st "metric_type=counterusers_online" "value") =
          some (GoVal.vint 2)) :=
  ⟨by decide, by decide, counter_samplerate_trunc_equiv 5 ⟨5, 10⟩ (by decide) (by decide)⟩

/-- C3 (counterexample): `parseStatsdLine` on the two-value line
`foo:1|c:xyz` returns `errParsing`, yet the counter cache already holds
the first value `1`: earlier values of a multi-value line are aggregated
before the error is returned, so the whole line is not dropped. -/
theorem parse_error_partial_aggregation_ce :
    (match parseStatsdLine cfg0 0 "foo:1|c:xyz" emptyState with
      | .parseError st => some st.counters
      | _ => none) =
      some [("metric_type=counterfoo",
        { name := "foo", fields := [("value", GoVal.vint 1)],
          tags := [("metric_type", "counter")], expiresAt := 0 })] ∧
      emptyState.counters = [] := by decide

/-- C3 (amended): when `parseStatsdLine` returns `errParsing`, the failing
value and all later values of the line are dropped - for a single-value line
the caches are unchanged - but values parsed earlier in the same multi-value
line have already been aggregated; the worker treats `errParsing` as
non-fatal and continues with the next line. -/
theorem parse_error_drop_semantics :
    (∀ (cfg : Config) (now : Int) (bkt : String) (lt : List (String × String))
        (bit : String) (st st' : StatsdState),
        processBits cfg now bkt lt [bit] st = .parseError st' → st' = st) ∧
      ∀ (cfg : Config) (now : Int) (line : String) (rest : List String)
        (st st' : StatsdState),
        gTrim line = line → line ≠ "" →
        (cfg.DataDogExtensions && gStartsWith line "_e") = false →
        parseStatsdLine cfg now line st = .parseError st' →
        workerLines cfg now (line :: rest) st = workerLines cfg now rest st' := by
  constructor
  · intro cfg now bkt lt bit st st' h
    rcases hpb : parseBit cfg bkt lt bit with _ | m
    · simp only [processBits, hpb] at h
      cases h
      rfl
    · rcases hag : aggregate cfg now st m with _ | st1
      · simp only [processBits, hpb, hag] at h
        cases h
      · simp only [processBits, hpb, hag] at h
        cases h
  · intro cfg now line rest st st' htrim hne hdd hp
    conv_lhs => rw [workerLines]
    rw [htrim, if_neg hne, hdd]
    simp only [Bool.false_eq_true, if_false]
    rw [hp]

/-- Witness for `parse_error_drop_semantics`: the worker continues after the
failing line `foo:1|c:xyz`, carrying the partially updated state, and a
single-value parse failure leaves the state unchanged. -/
theorem parse_error_drop_semantics_witness :
    processBits cfg0 0 "b" [] ["junk"] emptyState = .parseError emptyState →
      workerLines cfg0 0 ["foo:1|c:xyz", "y:1|c"] emptyState =
        workerLines cfg0 0 ["y:1|c"]
          { counters := [("metric_type=counterfoo",
              { name := "foo", fields := [("value", GoVal.vint 1)],
                tags := [("metric_type", "counter")], expiresAt := 0 })] } :=
  fun _ =>
    parse_error_drop_semantics.2 cfg0 0 "foo:1|c:xyz" ["y:1|c"] emptyState
      { counters := [("metric_type=counterfoo",
          { name := "foo", fields := [("value", GoVal.vint 1)],
            tags := [("metric_type", "counter")], expiresAt := 0 })] }
      (by decide) (by decide) (by decide) (by decide)

/-- C4 (counterexample): a timing sample with sample rate `2 > 1` is added
`int(1/2) = 0` times, not once as the claim states: after `rt:100|ms|@2` the
cached `RunningStats` exists with `count = 0`. -/
theorem timing_rate_above_one_ce :
    (parseStatsdLine cfg0 0 "rt:100|ms|@2" emptyState).state.bind
        (fun st => (timingField st "metric_type=timingrt" "value").map
          runningStats.count) =
      some 0 ∧ (some (0 : Int) : Option Int) ≠ some 1 := by decide

/-- C4 (amended): a timing or histogram sample is added
`int(1/samplerate)` times whenever `samplerate > 0` - which is `floor(1/r)`
times for `r ∈ (0,1)`, once for `r = 1`, and zero times for `r > 1` - and
exactly once when the rate is absent, zero, or negative (statsd.go lines
879-885). -/
theorem timing_samplerate_multiplicity (cfg : Config) (now : Int)
    (st : StatsdState) (m : metric) (h : m.mtype = "ms" ∨ m.mtype = "h") :
    ∃ st', aggregate cfg now st m = some st' ∧
      timingField st' m.hash m.field =
        some (addValueN
          ((timingField st m.hash m.field).getD { percLimit := cfg.PercentileLimit })
          m.floatvalue
          (if m.samplerate.pos then ((Q.one.div m.samplerate).trunc).toNat else 1)) := by
  have hne : ¬ m.mtype = "d" := by rcases h with h | h <;> simp [h]
  rw [aggregate, if_neg hne, if_pos h]
  rcases hT : mget st.timings m.hash with _ | cached
  · refine ⟨_, rfl, ?_⟩
    simp [timingField, hT, mget_mput_self, mget]
  · rcases hF : mget cached.fields m.field with _ | f
    · refine ⟨_, rfl, ?_⟩
      simp [timingField, hT, hF, mget_mput_self]
    · refine ⟨_, rfl, ?_⟩
      simp [timingField, hT, hF, mget_mput_self]

/-- Witness for `timing_samplerate_multiplicity` at a fresh `ms` sample with
rate `0.5`. -/
theorem timing_samplerate_multiplicity_witness :
    ∃ st', aggregate cfg0 0 emptyState
        { mtype := "ms", hash := "h", field := "value",
          floatvalue := ⟨100, 1⟩, samplerate := ⟨5, 10⟩ } = some st' ∧
      timingField st' "h" "value" =
        some (addValueN
          ((timingField emptyState "h" "value").getD
            { percLimit := cfg0.PercentileLimit })
          ⟨100, 1⟩
          (if (⟨5, 10⟩ : Q).pos then ((Q.one.div ⟨5, 10⟩).trunc).toNat else 1)) :=
  timing_samplerate_multiplicity cfg0 0 emptyState
    { mtype := "ms", hash := "h", field := "value",
      floatvalue := ⟨100, 1⟩, samplerate := ⟨5, 10⟩ } (Or.inl rfl)

/-- C6: a non-additive gauge sample replaces the cached field value (last
writer wins); an additive sample adds its float value to the current value,
whose initial value is `0.0`; the literal sequence `load:42|g`, `load:+5|g`,
`load:-10|g` leaves the cached gauge field at `37` (statsd.go lines 907-929). -/
theorem gauge_replace_and_additive :
    (∀ (cfg : Config) (now : Int) (st : StatsdState) (m : metric),
        m.mtype = "g" → m.additive = false →
        ∃ st', aggregate cfg now st m = some st' ∧
          gaugeField st' m.hash m.field = some (GoVal.vfloat m.floatvalue)) ∧
      (∀ (cfg : Config) (now : Int) (st : StatsdState) (m : metric) (q : Q),
        m.mtype = "g" → m.additive = true →
        (match gaugeField st m.hash m.field with
          | none => some ({} : Q)
          | some v => v.asFloat) = some q →
        ∃ st', aggregate cfg now st m = some st' ∧
          gaugeField st' m.hash m.field = some (GoVal.vfloat (q.add m.floatvalue))) ∧
      (workerLines cfg0 0 ["load:42|g", "load:+5|g", "load:-10|g"] emptyState).bind
          (fun st => gaugeField st "metric_type=gaugeload" "value") =
        some (GoVal.vfloat ⟨37, 1⟩) := by
  refine ⟨?_, ?_, by decide⟩
  · intro cfg now st m hg ha
    have h1 : ¬ m.mtype = "d" := by simp [hg]
    have h2 : ¬ (m.mtype = "ms" ∨ m.mtype = "h") := by simp [hg]
    have h3 : ¬ m.mtype = "c" := by simp [hg]
    rw [aggregate, if_neg h1, if_neg h2, if_neg h3, if_pos hg, ha]
    simp only [Bool.false_eq_true, if_false]
    rcases hG : mget st.gauges m.hash with _ | cached
    · refine ⟨_, rfl, ?_⟩
      simp [gaugeField, mget_mput_self, mget]
    · rcases hF : mget cached.fields m.field with _ | v
      · refine ⟨_, rfl, ?_⟩
        simp [gaugeField, hF, mget_mput_self]
      · refine ⟨_, rfl, ?_⟩
        simp [gaugeField, hF, mget_mput_self]
  · intro cfg now st m q hg ha hcur
    have h1 : ¬ m.mtype = "d" := by simp [hg]
    have h2 : ¬ (m.mtype = "ms" ∨ m.mtype = "h") := by simp [hg]
    have h3 : ¬ m.mtype = "c" := by simp [hg]
    rw [aggregate, if_neg h1, if_neg h2, if_neg h3, if_pos hg, ha]
    simp only [if_true]
    rcases hG : mget st.gauges m.hash with _ | cached
    · simp only [gaugeField, hG, Option.bind] at hcur
      have hq := Option.some.inj hcur
      subst hq
      simp [gaugeField, mget, mput, mget_mput_self, GoVal.asFloat]
    · rcases hF : mget cached.fields m.field with _ | v
      · simp only [gaugeField, hG, Option.bind, hF] at hcur
        have hq := Option.some.inj hcur
        subst hq
        simp [gaugeField, hF, mget, mput, mget_mput_self, GoVal.asFloat]
      · simp only [gaugeField, hG, Option.bind, hF] at hcur
        rcases v with i | qq | s
        · simp [GoVal.asFloat] at hcur
        · simp only [GoVal.asFloat, Option.some.injEq] at hcur
          subst hcur
          simp [gaugeField, hF, mget_mput_self, GoVal.asFloat]
        · simp [GoVal.asFloat] at hcur

/-- Witness for `gauge_replace_and_additive`: a concrete replacement, a
concrete additive update on a fresh field, and the literal 37 example. -/
theorem gauge_replace_and_additive_witness :
    (∃ st', aggregate cfg0 0 emptyState
        { mtype := "g", hash := "h", field := "value", floatvalue := ⟨42, 1⟩ } =
          some st' ∧
        gaugeField st' "h" "value" = some (GoVal.vfloat ⟨42, 1⟩)) ∧
      ∃ st', aggregate cfg0 0 emptyState
          { mtype := "g", hash := "h", field := "value", floatvalue := ⟨5, 1⟩,
            additive := true } = some st' ∧
        gaugeField st' "h" "value" = some (GoVal.vfloat (({} : Q).add ⟨5, 1⟩)) :=
  ⟨gauge_replace_and_additive.1 cfg0 0 emptyState
      { mtype := "g", hash := "h", field := "value", floatvalue := ⟨42, 1⟩ } rfl rfl,
    gauge_replace_and_additive.2.1 cfg0 0 emptyState
      { mtype := "g", hash := "h", field := "value", floatvalue := ⟨5, 1⟩,
        additive := true } {} rfl rfl (by decide)⟩

/-- C8 (counterexample): with the unknown sanitize method `bogus` a valid
line is not dropped: `foo:1|c` is parsed and aggregated normally, so the
"affected line dropped" half of the claim fails on the code. -/
theorem config_error_not_dropped_ce :
    parseStatsdLine { cfg0 with SanitizeNamesMethod := "bogus" } 0 "foo:1|c"
        emptyState =
      .ok { counters := [("metric_type=counterfoo",
        { name := "foo", fields := [("value", GoVal.vint 1)],
          tags := [("metric_type", "counter")], expiresAt := 0 })] } := by decide

/-- C8 (amended): an unknown metric type yields `errParsing`, dropping that
value and the rest of its line; an unknown `SanitizeNamesMethod` is only
logged - `parseName` behaves exactly as with the empty method and the line is
processed and aggregated normally (statsd.go lines 675-681 and 786-796). -/
theorem config_error_semantics :
    (∀ (cfg : Config) (bucket : String),
        cfg.SanitizeNamesMethod ≠ "" → cfg.SanitizeNamesMethod ≠ "upstream" →
        parseName cfg bucket =
          parseName { cfg with SanitizeNamesMethod := "" } bucket) ∧
      (∀ (cfg : Config) (bkt : String) (lt : List (String × String))
          (bit v0 t1 : String) (rest0 : List String),
        gSplit '|' bit = v0 :: t1 :: rest0 →
        t1 ≠ "g" → t1 ≠ "c" → t1 ≠ "s" → t1 ≠ "ms" → t1 ≠ "h" → t1 ≠ "d" →
        parseBit cfg bkt lt bit = none) ∧
      ∀ (cfg : Config) (now : Int) (bkt : String) (lt : List (String × String))
          (bit : String) (rest : List String) (st : StatsdState),
        parseBit cfg bkt lt bit = none →
        processBits cfg now bkt lt (bit :: rest) st = .parseError st := by
  refine ⟨?_, ?_, ?_⟩
  · intro cfg bucket h1 h2
    unfold parseName
    simp [if_neg h1, if_neg h2]
  · intro cfg bkt lt bit v0 t1 rest0 hsplit h1 h2 h3 h4 h5 h6
    have hcond : ¬ (t1 = "g" ∨ t1 = "c" ∨ t1 = "s" ∨ t1 = "ms" ∨ t1 = "h" ∨ t1 = "d") := by
      simp [h1, h2, h3, h4, h5, h6]
    simp only [parseBit, hsplit]
    rw [if_pos hcond]
  · intro cfg now bkt lt bit rest st hp
    simp only [processBits, hp]

/-- Witness for `config_error_semantics`: the `bogus` method keys names like
the empty method, `1|x` is rejected, and the rejection drops the line tail. -/
theorem config_error_semantics_witness :
    parseName { cfg0 with SanitizeNamesMethod := "bogus" } "foo" =
        parseName { { cfg0 with SanitizeNamesMethod := "bogus" } with
          SanitizeNamesMethod := "" } "foo" ∧
      parseBit cfg0 "foo" [] "1|x" = none ∧
      processBits cfg0 0 "foo" [] ["1|x"] emptyState = .parseError emptyState :=
  ⟨config_error_semantics.1 { cfg0 with SanitizeNamesMethod := "bogus" } "foo"
      (by decide) (by decide),
    config_error_semantics.2.1 cfg0 "foo" [] "1|x" "1" "x" [] (by decide)
      (by decide) (by decide) (by decide) (by decide) (by decide) (by decide),
    config_error_semantics.2.2 cfg0 0 "foo" [] "1|x" [] emptyState
      (config_error_semantics.2.1 cfg0 "foo" [] "1|x" "1" "x" [] (by decide)
        (by decide) (by decide) (by decide) (by decide) (by decide) (by decide))⟩

/-- C2 (code_bug evaluation): with `FloatCounters` on and `DeleteCounters`
off, `Gather` converts the cached counter fields to float in place (second
conjunct); a following aggregate of the same counter then fails its
`.(int64)` type assertion - a runtime panic, `none` (first conjunct) - while
without the intervening `Gather` the second aggregate adds normally (third
conjunct). -/
theorem counter_regather_assertion_panic :
    ((aggregate cfgFloatKeep 0 emptyState probeCounter).bind
        (gatherCounters cfgFloatKeep "t")).bind
      (fun st => aggregate cfgFloatKeep 0 st probeCounter) = none ∧
      ((aggregate cfgFloatKeep 0 emptyState probeCounter).bind
          (gatherCounters cfgFloatKeep "t")).bind
        (fun st => counterField st "h" "value") = some (GoVal.vfloat ⟨1, 1⟩) ∧
      (aggregate cfgFloatKeep 0 emptyState probeCounter).bind
        (fun st => (aggregate cfgFloatKeep 0 st probeCounter).bind
          (fun st2 => counterField st2 "h" "value")) = some (GoVal.vint 2) := by
  decide

theorem mget_filter_expire {α : Type} (f : α → Int) (now : Int)
    (l : List (String × α)) (k : String) (hnd : (l.map Prod.fst).Nodup) :
    mget (l.filter fun kv => !decide (f kv.2 < now)) k =
      (mget l k).bind fun e => if f e < now then none else some e := by
  rw [mget_filter (fun e => !decide (f e < now)) l k hnd]
  rcases mget l k with _ | e
  · rfl
  · by_cases hc : f e < now <;> simp [hc]

/-- C7: every successful `aggregate` call stamps the touched cache entry with
`expiresAt = now + MaxTTL` (statsd.go lines 885-946); with `MaxTTL ≠ 0` the
`Gather`-time eviction removes from each of the four caches exactly the
entries with `expiresAt < now` (`now.After(expiresAt)`, strict); with
`MaxTTL = 0` no entry is ever evicted. -/
theorem ttl_refresh_and_eviction :
    (∀ (cfg : Config) (now : Int) (st : StatsdState) (m : metric)
        (st' : StatsdState), aggregate cfg now st m = some st' →
        (m.mtype = "c" → ∃ e, mget st'.counters m.hash = some e ∧
            e.expiresAt = now + cfg.MaxTTL) ∧
        (m.mtype = "g" → ∃ e, mget st'.gauges m.hash = some e ∧
            e.expiresAt = now + cfg.MaxTTL) ∧
        (m.mtype = "s" → ∃ e, mget st'.sets m.hash = some e ∧
            e.expiresAt = now + cfg.MaxTTL) ∧
        ((m.mtype = "ms" ∨ m.mtype = "h") → ∃ e, mget st'.timings m.hash = some e ∧
            e.expiresAt = now + cfg.MaxTTL)) ∧
      (∀ (maxTTL now : Int) (st : StatsdState) (k : String), 0 < maxTTL →
        ((st.counters.map Prod.fst).Nodup →
          mget (expireCachedMetrics maxTTL now st).counters k =
            (mget st.counters k).bind fun e =>
              if e.expiresAt < now then none else some e) ∧
        ((st.gauges.map Prod.fst).Nodup →
          mget (expireCachedMetrics maxTTL now st).gauges k =
            (mget st.gauges k).bind fun e =>
              if e.expiresAt < now then none else some e) ∧
        ((st.sets.map Prod.fst).Nodup →
          mget (expireCachedMetrics maxTTL now st).sets k =
            (mget st.sets k).bind fun e =>
              if e.expiresAt < now then none else some e) ∧
        ((st.timings.map Prod.fst).Nodup →
          mget (expireCachedMetrics maxTTL now st).timings k =
            (mget st.timings k).bind fun e =>
              if e.expiresAt < now then none else some e)) ∧
      ∀ (now : Int) (st : StatsdState), expireCachedMetrics 0 now st = st := by
  refine ⟨?_, ?_, ?_⟩
  · intro cfg now st m st' hagg
    refine ⟨?_, ?_, ?_, ?_⟩
    · intro hm
      have h1 : ¬ m.mtype = "d" := by simp [hm]
      have h2 : ¬ (m.mtype = "ms" ∨ m.mtype = "h") := by simp [hm]
      rw [aggregate, if_neg h1, if_neg h2, if_pos hm] at hagg
      rcases hT : mget st.counters m.hash with _ | cached
      · simp only [hT] at hagg
        simp [mget, mput, GoVal.asInt] at hagg
        subst hagg
        exact ⟨_, mget_mput_self _ _ _, rfl⟩
      · simp only [hT] at hagg
        rcases hF : mget cached.fields m.field with _ | v
        · simp only [hF] at hagg
          simp [mget_mput_self, GoVal.asInt] at hagg
          subst hagg
          exact ⟨_, mget_mput_self _ _ _, rfl⟩
        · simp only [hF] at hagg
          rcases v with i | qq | sv
          · simp [GoVal.asInt] at hagg
            subst hagg
            exact ⟨_, mget_mput_self _ _ _, rfl⟩
          · simp [GoVal.asInt] at hagg
          · simp [GoVal.asInt] at hagg
    · intro hm
      have h1 : ¬ m.mtype = "d" := by simp [hm]
      have h2 : ¬ (m.mtype = "ms" ∨ m.mtype = "h") := by simp [hm]
      have h3 : ¬ m.mtype = "c" := by simp [hm]
      rw [aggregate, if_neg h1, if_neg h2, if_neg h3, if_pos hm] at hagg
      rcases hT : mget st.gauges m.hash with _ | cached
      · simp only [hT] at hagg
        rcases hadd : m.additive
        · simp only [hadd] at hagg
          simp [mget, mput, GoVal.asFloat] at hagg
          subst hagg
          exact ⟨_, mget_mput_self _ _ _, rfl⟩
        · simp only [hadd] at hagg
          simp [mget, mput, GoVal.asFloat] at hagg
          subst hagg
          exact ⟨_, mget_mput_self _ _ _, rfl⟩
      · simp only [hT] at hagg
        rcases hF : mget cached.fields m.field with _ | v
        · simp only [hF] at hagg
          rcases hadd : m.additive
          · simp only [hadd] at hagg
            simp [mget_mput_self, GoVal.asFloat] at hagg
            subst hagg
            exact ⟨_, mget_mput_self _ _ _, rfl⟩
          · simp only [hadd] at hagg
            simp [mget_mput_self, GoVal.asFloat] at hagg
            subst hagg
            exact ⟨_, mget_mput_self _ _ _, rfl⟩
        · simp only [hF] at hagg
          rcases hadd : m.additive
          · simp only [hadd] at hagg
            simp [GoVal.asFloat] at hagg
            subst hagg
            exact ⟨_, mget_mput_self _ _ _, rfl⟩
          · simp only [hadd] at hagg
            rcases v with i | qq | sv
            · simp [GoVal.asFloat] at hagg
            · simp [GoVal.asFloat] at hagg
              subst hagg
              exact ⟨_, mget_mput_self _ _ _, rfl⟩
            · simp [GoVal.asFloat] at hagg
    · intro hm
      have h1 : ¬ m.mtype = "d" := by simp [hm]
      have h2 : ¬ (m.mtype = "ms" ∨ m.mtype = "h") := by simp [hm]
      have h3 : ¬ m.mtype = "c" := by simp [hm]
      have h4 : ¬ m.mtype = "g" := by simp [hm]
      rw [aggregate, if_neg h1, if_neg h2, if_neg h3, if_neg h4, if_pos hm] at hagg
      rcases hT : mget st.sets m.hash with _ | cached
      · simp only [hT] at hagg
        simp [mget, mput] at hagg
        subst hagg
        exact ⟨_, mget_mput_self _ _ _, rfl⟩
      · simp only [hT] at hagg
        rcases hF : mget cached.fields m.field with _ | l
        · simp only [hF] at hagg
          simp [mget_mput_self] at hagg
          subst hagg
          exact ⟨_, mget_mput_self _ _ _, rfl⟩
        · simp only [hF] at hagg
          simp at hagg
          subst hagg
          exact ⟨_, mget_mput_self _ _ _, rfl⟩
    · intro hm
      have h1 : ¬ m.mtype = "d" := by rcases hm with hm | hm <;> simp [hm]
      rw [aggregate, if_neg h1, if_pos hm] at hagg
      rcases hT : mget st.timings m.hash with _ | cached
      · simp only [hT] at hagg
        simp [mget, mput] at hagg
        subst hagg
        exact ⟨_, mget_mput_self _ _ _, rfl⟩
      · simp only [hT] at hagg
        simp at hagg
        subst hagg
        exact ⟨_, mget_mput_self _ _ _, rfl⟩
  · intro maxTTL now st k hpos
    have hne : ¬ maxTTL = 0 := by omega
    refine ⟨?_, ?_, ?_, ?_⟩ <;> intro hnd <;>
      unfold expireCachedMetrics <;> rw [if_neg hne] <;>
      exact mget_filter_expire (fun e => e.expiresAt) now _ k hnd
  · intro now st
    unfold expireCachedMetrics
    rw [if_pos rfl]

/-- Witness for `ttl_refresh_and_eviction`: the stamped expiry of a concrete
aggregate, a concrete eviction, and the `MaxTTL = 0` no-op. -/
theorem ttl_refresh_and_eviction_witness :
    (∃ e, mget probeCounterState.counters "h" = some e ∧
        e.expiresAt = 0 + cfg0.MaxTTL) ∧
      mget (expireCachedMetrics 5 10 ttlProbeState).counters "h" =
        (mget ttlProbeState.counters "h").bind
          (fun e => if e.expiresAt < 10 then none else some e) ∧
      expireCachedMetrics 0 7 ttlProbeState = ttlProbeState :=
  ⟨(ttl_refresh_and_eviction.1 cfg0 0 emptyState probeCounter probeCounterState
      (by decide)).1 rfl,
    (ttl_refresh_and_eviction.2.1 5 10 ttlProbeState "h" (by decide)).1 (by decide),
    ttl_refresh_and_eviction.2.2 7 ttlProbeState⟩

end Statsd
